import Mathlib

/-!
Verification of the orphaned-UTXO reconciliation and cleanup engine
(`src/MD/run_orphaned_cleanup.py`, function `clean_orphaned_utxos`).

Shallow embedding conventions:
* A JSON UTXO object becomes `UtxoEntry`: the two fields the algorithm
  inspects (`address`, `value_credits`) are modelled as `Option` (a missing
  dictionary key is `none`, mirroring Python's `dict.get`), and all other
  fields are carried opaquely in `extra` so that entries round-trip verbatim.
* A wallet file becomes `WalletFile`: its name plus `Option WalletRecord`,
  where `none` models a file whose contents fail to parse as a wallet record
  (Python's `json.load` raising on it).
* The store file's contents are modelled at the level of the parsed entry
  sequence, since every write the program performs serialises such a
  sequence; a byte-identical copy (`shutil.copy2`) therefore carries the
  same entry sequence.
* The run is modelled as a function from an explicit filesystem state to a
  `RunResult`: the ordered trace of filesystem effects, the outcome
  (report or raised error), and the post-run state.  The float field
  `orphaned_value_btp` (credits / 1e8, display only) is not modelled.
-/

/-- One UTXO object from the store.  `address` and `value_credits` are the
keys read by the cleanup loop (`utxo.get('address', '')`,
`utxo.get('value_credits', 0)`); `extra` stands for all remaining key/value
pairs, preserved verbatim. -/
structure UtxoEntry where
  address : Option String
  value_credits : Option Int
  extra : List (String × String)
deriving DecidableEq, Repr

/-- One wallet record as read from a `wallet_*.json` file: the two optional
string fields the identifier-index build inspects. -/
structure WalletRecord where
  public_key : Option String
  address : Option String
deriving DecidableEq, Repr

/-- A file in the wallet store directory: its name and its parsed contents,
`none` when the contents do not parse as a wallet record. -/
structure WalletFile where
  name : String
  record : Option WalletRecord
deriving DecidableEq, Repr

/-- `filename.startswith('wallet_') and filename.endswith('.json')`
(line 29 of the source), over character lists. -/
def matchesWalletName (name : String) : Bool :=
  "wallet_".data.isPrefixOf name.data && ".json".data.isSuffixOf name.data

/-- Python `set.add`: insert a string into the identifier set unless it is
already a member.  Membership is the only capability the algorithm uses. -/
def setInsert (ids : List String) (x : String) : List String :=
  if x ∈ ids then ids else ids ++ [x]

/-- Errors the run can raise, mirroring the Python exceptions:
`utxoFileNotFound` is the explicit `FileNotFoundError` of line 18,
`walletDirNotFound` is `os.listdir` raising on a missing directory
(line 28), `walletParseError` is `json.load` raising on a wallet file
(line 32). -/
inductive RunError where
  | utxoFileNotFound
  | walletDirNotFound
  | walletParseError (name : String)
deriving DecidableEq, Repr

/-- Lines 34-37: add `public_key` to the identifier set when that key is
present in the record, then likewise `address`.  The source performs no
emptiness check on either value. -/
def addWalletRecord (ids : List String) (r : WalletRecord) : List String :=
  let ids1 := match r.public_key with
    | some k => setInsert ids k
    | none => ids
  match r.address with
  | some a => setInsert ids1 a
  | none => ids1

/-- The wallet-identifier index build (lines 28-37): iterate over directory
entries in order; for each file matching the naming convention, parse it —
a parse failure propagates and aborts the build — and add the record's
identifiers to the set. -/
def buildIdentifiersAux (ids : List String) : List WalletFile → Except RunError (List String)
  | [] => .ok ids
  | f :: rest =>
    if matchesWalletName f.name then
      match f.record with
      | none => .error (.walletParseError f.name)
      | some r => buildIdentifiersAux (addWalletRecord ids r) rest
    else
      buildIdentifiersAux ids rest

/-- Build the identifier set from the wallet directory listing, starting
from the empty set (`wallet_identifiers = set()`, line 25). -/
def buildIdentifiers (files : List WalletFile) : Except RunError (List String) :=
  buildIdentifiersAux [] files

/-- Result of the partition loop (lines 42-54): the owned entries in order,
the orphaned entries in order, and the running orphaned-value sum. -/
structure PartitionResult where
  owned : List UtxoEntry
  orphaned : List UtxoEntry
  orphanedValue : Int
deriving DecidableEq, Repr

/-- The classification test of line 47-48: `utxo.get('address', '')` is a
member of the wallet-identifier set. -/
def ownedTest (ids : List String) (u : UtxoEntry) : Bool :=
  decide ((u.address.getD "") ∈ ids)

/-- The partition loop (lines 46-54): one linear scan; an entry whose
effective address is in the identifier set is appended to `owned`,
otherwise it is appended to `orphaned` and `utxo.get('value_credits', 0)`
is added to the orphaned-value accumulator. -/
def partitionUtxos (ids : List String) : List UtxoEntry → PartitionResult
  | [] => ⟨[], [], 0⟩
  | u :: rest =>
    if (u.address.getD "") ∈ ids then
      ⟨u :: (partitionUtxos ids rest).owned,
       (partitionUtxos ids rest).orphaned,
       (partitionUtxos ids rest).orphanedValue⟩
    else
      ⟨(partitionUtxos ids rest).owned,
       u :: (partitionUtxos ids rest).orphaned,
       u.value_credits.getD 0 + (partitionUtxos ids rest).orphanedValue⟩

/-- The report dictionary of lines 57-63 (the float display field
`orphaned_value_btp` is not modelled). -/
structure Report where
  total_utxos : Nat
  owned_utxos : Nat
  orphaned_utxos : Nat
  orphaned_value_credits : Int
deriving DecidableEq, Repr

/-- `report = {'total_utxos': len(owned)+len(orphaned), ...}` (lines 57-63). -/
def mkReport (p : PartitionResult) : Report :=
  { total_utxos := p.owned.length + p.orphaned.length
  , owned_utxos := p.owned.length
  , orphaned_utxos := p.orphaned.length
  , orphaned_value_credits := p.orphanedValue }

/-- Filesystem effects the run can perform, in program order.
`copyFile` is `shutil.copy2` (line 76); `openTruncate` is
`open(utxo_file, 'w')` — opening an existing file for writing truncates it
in place (line 80); `writeAll` is `json.dump` into that handle (line 81).
`renameFile` is never emitted by this program; it exists so that the
absence of an atomic rename step is expressible. -/
inductive FsEvent where
  | readUtxoFile
  | listWalletDir
  | copyFile (src dst : String)
  | openTruncate (path : String)
  | writeAll (path : String) (content : List UtxoEntry)
  | renameFile (src dst : String)
deriving DecidableEq, Repr

/-- Filesystem state visible to one run: the UTXO store file (name and
parsed contents; `none` = does not exist), the wallet directory listing
(`none` = directory does not exist), and the backup files created so far
(name and contents). -/
structure StoreState where
  utxoFile : Option (List UtxoEntry)
  utxoFileName : String
  walletDir : Option (List WalletFile)
  backups : List (String × List UtxoEntry)
deriving DecidableEq, Repr

/-- Outcome of one invocation of `clean_orphaned_utxos`: the ordered trace
of filesystem effects, the returned report or raised error, and the
filesystem state after the call. -/
structure RunResult where
  events : List FsEvent
  outcome : Except RunError Report
  finalStore : StoreState
deriving Repr

/-- `backup_file = utxo_file.parent / f"wallet_utxos.json.orphan_backup_{timestamp}"`
(line 75): the backup name uses the fixed base `wallet_utxos.json`, not the
store file's own name. -/
def backupFileName (timestamp : String) : String :=
  "wallet_utxos.json.orphan_backup_" ++ timestamp

/-- `clean_orphaned_utxos(utxo_file, wallets_dir, dry_run)` (lines 13-92):
check the store exists (raise otherwise), read it, build the identifier
index from the wallet directory (a missing directory or an unparseable
matching wallet file raises here, after the store was already read),
partition, build the report; then, only when `not dry_run and
orphaned_utxos > 0`, copy the store to the timestamped backup and rewrite
the store file in place with the owned entries. -/
def cleanOrphanedUtxos (st : StoreState) (dry_run : Bool) (timestamp : String) : RunResult :=
  match st.utxoFile with
  | none => ⟨[], .error .utxoFileNotFound, st⟩
  | some utxos =>
    match st.walletDir with
    | none => ⟨[.readUtxoFile], .error .walletDirNotFound, st⟩
    | some wfiles =>
      match buildIdentifiers wfiles with
      | .error e => ⟨[.readUtxoFile, .listWalletDir], .error e, st⟩
      | .ok ids =>
        let p := partitionUtxos ids utxos
        let report := mkReport p
        if dry_run = false ∧ 0 < report.orphaned_utxos then
          ⟨[.readUtxoFile, .listWalletDir,
            .copyFile st.utxoFileName (backupFileName timestamp),
            .openTruncate st.utxoFileName,
            .writeAll st.utxoFileName p.owned],
           .ok report,
           { st with utxoFile := some p.owned
                   , backups := st.backups ++ [(backupFileName timestamp, utxos)] }⟩
        else
          ⟨[.readUtxoFile, .listWalletDir], .ok report, st⟩

/-- True when the trace contains a rename step. -/
def hasRename (events : List FsEvent) : Bool :=
  events.any fun e => match e with
    | .renameFile _ _ => true
    | _ => false

/-! ## Partition lemmas -/

/-- Every entry the loop classifies as owned passes the membership test. -/
theorem mem_owned_passes (ids : List String) (utxos : List UtxoEntry) :
    ∀ e ∈ (partitionUtxos ids utxos).owned, (e.address.getD "") ∈ ids := by
  induction utxos with
  | nil => simp [partitionUtxos]
  | cons u rest ih =>
    by_cases h : (u.address.getD "") ∈ ids
    · simp only [partitionUtxos, if_pos h, List.mem_cons]
      rintro e (rfl | he)
      · exact h
      · exact ih e he
    · simp only [partitionUtxos, if_neg h]
      exact ih

/-- Every entry the loop classifies as orphaned fails the membership test. -/
theorem mem_orphaned_fails (ids : List String) (utxos : List UtxoEntry) :
    ∀ e ∈ (partitionUtxos ids utxos).orphaned, (e.address.getD "") ∉ ids := by
  induction utxos with
  | nil => simp [partitionUtxos]
  | cons u rest ih =>
    by_cases h : (u.address.getD "") ∈ ids
    · simp only [partitionUtxos, if_pos h]
      exact ih
    · simp only [partitionUtxos, if_neg h, List.mem_cons]
      rintro e (rfl | he)
      · exact h
      · exact ih e he

/-- Owned and orphaned together are a permutation of the input sequence. -/
theorem partition_perm (ids : List String) (utxos : List UtxoEntry) :
    ((partitionUtxos ids utxos).owned ++ (partitionUtxos ids utxos).orphaned).Perm utxos := by
  induction utxos with
  | nil => simp [partitionUtxos]
  | cons u rest ih =>
    by_cases h : (u.address.getD "") ∈ ids
    · simpa only [partitionUtxos, if_pos h, List.cons_append] using ih.cons u
    · simp only [partitionUtxos, if_neg h]
      exact List.perm_middle.trans (ih.cons u)

/-- The accumulator equals the exact integer sum of `value_credits`
(missing values read as 0) over the orphaned entries. -/
theorem partition_value_sum (ids : List String) (utxos : List UtxoEntry) :
    (partitionUtxos ids utxos).orphanedValue
      = ((partitionUtxos ids utxos).orphaned.map (fun e => e.value_credits.getD 0)).sum := by
  induction utxos with
  | nil => simp [partitionUtxos]
  | cons u rest ih =>
    by_cases h : (u.address.getD "") ∈ ids
    · simpa only [partitionUtxos, if_pos h] using ih
    · simp only [partitionUtxos, if_neg h, List.map_cons, List.sum_cons]
      exact congrArg (u.value_credits.getD 0 + ·) ih

/-- If every entry passes the membership test, the partition returns the
whole sequence as owned, no orphans, and a zero orphaned sum. -/
theorem partition_all_owned (ids : List String) (utxos : List UtxoEntry)
    (h : ∀ e ∈ utxos, (e.address.getD "") ∈ ids) :
    partitionUtxos ids utxos = ⟨utxos, [], 0⟩ := by
  induction utxos with
  | nil => simp [partitionUtxos]
  | cons u rest ih =>
    have hu : (u.address.getD "") ∈ ids := h u (List.mem_cons_self u rest)
    have hrest := ih fun e he => h e (List.mem_cons_of_mem u he)
    simp [partitionUtxos, if_pos hu, hrest]

/-- If the partition reports no orphans, it returned the input unchanged. -/
theorem partition_of_orphaned_nil (ids : List String) (utxos : List UtxoEntry)
    (h : (partitionUtxos ids utxos).orphaned = []) :
    partitionUtxos ids utxos = ⟨utxos, [], 0⟩ := by
  refine partition_all_owned ids utxos fun e he => ?_
  by_contra hmem
  have hperm := partition_perm ids utxos
  have : e ∈ (partitionUtxos ids utxos).owned ++ (partitionUtxos ids utxos).orphaned :=
    hperm.symm.subset he
  rcases List.mem_append.mp this with h1 | h2
  · exact hmem (mem_owned_passes ids utxos e h1)
  · simp [h] at h2

/-- C1: `reconcile` partitions the UTXO sequence by the membership test
`entry.address ∈ identifierSet` (a missing address reads as the empty
string): owned and orphaned together are exactly the input as a multiset,
the two classes are disjoint (each owned entry passes the test, each
orphaned entry fails it, so no entry lies in both), the report satisfies
`totalCount = ownedCount + orphanedCount`, and `orphanedValueCredits` is
the exact integer sum of `value_credits` over the orphaned entries. -/
theorem c1_partition_report (ids : List String) (utxos : List UtxoEntry) :
    (((partitionUtxos ids utxos).owned ++ (partitionUtxos ids utxos).orphaned).Perm utxos)
    ∧ (∀ e ∈ (partitionUtxos ids utxos).owned, (e.address.getD "") ∈ ids)
    ∧ (∀ e ∈ (partitionUtxos ids utxos).orphaned, (e.address.getD "") ∉ ids)
    ∧ (∀ e ∈ (partitionUtxos ids utxos).owned, e ∉ (partitionUtxos ids utxos).orphaned)
    ∧ (mkReport (partitionUtxos ids utxos)).total_utxos
        = (mkReport (partitionUtxos ids utxos)).owned_utxos
          + (mkReport (partitionUtxos ids utxos)).orphaned_utxos
    ∧ (mkReport (partitionUtxos ids utxos)).orphaned_value_credits
        = ((partitionUtxos ids utxos).orphaned.map (fun e => e.value_credits.getD 0)).sum := by
  refine ⟨partition_perm ids utxos, mem_owned_passes ids utxos,
    mem_orphaned_fails ids utxos, ?_, rfl, partition_value_sum ids utxos⟩
  intro e he hor
  exact mem_orphaned_fails ids utxos e hor (mem_owned_passes ids utxos e he)

/-! ## Claim theorems: report and mutation behaviour -/

/-- C2: in Execute mode (given a readable store and a buildable index),
when the partition finds orphans the run appends exactly one backup whose
contents are the pre-mutation store contents, and the trace places the
backup copy (index 2) strictly before the truncating open (index 3) and
the store write (index 4); when the partition finds no orphans, the state
is unchanged and no backup or write event occurs. -/
theorem c2_backup_before_write (st : StoreState) (ts : String)
    (utxos : List UtxoEntry) (wf : List WalletFile) (ids : List String)
    (hU : st.utxoFile = some utxos) (hW : st.walletDir = some wf)
    (hI : buildIdentifiers wf = .ok ids) :
    (0 < (partitionUtxos ids utxos).orphaned.length →
      (cleanOrphanedUtxos st false ts).finalStore.backups
          = st.backups ++ [(backupFileName ts, utxos)]
      ∧ (cleanOrphanedUtxos st false ts).events
          = [.readUtxoFile, .listWalletDir,
             .copyFile st.utxoFileName (backupFileName ts),
             .openTruncate st.utxoFileName,
             .writeAll st.utxoFileName (partitionUtxos ids utxos).owned])
    ∧ ((partitionUtxos ids utxos).orphaned.length = 0 →
      (cleanOrphanedUtxos st false ts).finalStore = st
      ∧ (cleanOrphanedUtxos st false ts).events = [.readUtxoFile, .listWalletDir]) := by
  obtain ⟨uf, nm, wd, bks⟩ := st
  simp only [StoreState.utxoFile] at hU
  simp only [StoreState.walletDir] at hW
  subst hU; subst hW
  constructor
  · intro h
    simp [cleanOrphanedUtxos, hI, mkReport, h]
  · intro h
    simp [cleanOrphanedUtxos, hI, mkReport, h]

/-- Witness for C2 at spec Scenario A/B: store holds one orphaned entry
(`addrB`, 300 credits), wallet index is `{addrA}`; the Execute run records
one backup containing the original store and the copy precedes the write. -/
theorem c2_backup_before_write_witness :
    (cleanOrphanedUtxos ⟨some [⟨some "addrB", some 300, []⟩], "wallet_utxos.json",
        some [⟨"wallet_a.json", some ⟨none, some "addrA"⟩⟩], []⟩
        false "20250101_000000").finalStore.backups
        = ([] : List (String × List UtxoEntry))
            ++ [(backupFileName "20250101_000000", [⟨some "addrB", some 300, []⟩])]
    ∧ (cleanOrphanedUtxos ⟨some [⟨some "addrB", some 300, []⟩], "wallet_utxos.json",
        some [⟨"wallet_a.json", some ⟨none, some "addrA"⟩⟩], []⟩
        false "20250101_000000").events
        = [.readUtxoFile, .listWalletDir,
           .copyFile "wallet_utxos.json" (backupFileName "20250101_000000"),
           .openTruncate "wallet_utxos.json",
           .writeAll "wallet_utxos.json"
             (partitionUtxos ["addrA"] [⟨some "addrB", some 300, []⟩]).owned] :=
  (c2_backup_before_write
    ⟨some [⟨some "addrB", some 300, []⟩], "wallet_utxos.json",
      some [⟨"wallet_a.json", some ⟨none, some "addrA"⟩⟩], []⟩
    "20250101_000000" [⟨some "addrB", some 300, []⟩]
    [⟨"wallet_a.json", some ⟨none, some "addrA"⟩⟩] ["addrA"] rfl rfl rfl).1 (by decide)

/-- C3: a DryRun invocation never mutates anything: the filesystem state
(store contents, store name, wallet directory, backup list) after the call
equals the state before it, and the trace contains only reads. -/
theorem c3_dryrun_no_mutation (st : StoreState) (ts : String) :
    (cleanOrphanedUtxos st true ts).finalStore = st
    ∧ ∀ e ∈ (cleanOrphanedUtxos st true ts).events,
        e = FsEvent.readUtxoFile ∨ e = FsEvent.listWalletDir := by
  obtain ⟨uf, nm, wd, bks⟩ := st
  cases uf with
  | none => simp [cleanOrphanedUtxos]
  | some utxos =>
    cases wd with
    | none => simp [cleanOrphanedUtxos]
    | some wf =>
      cases hb : buildIdentifiers wf with
      | error e => simp [cleanOrphanedUtxos, hb]
      | ok ids => simp [cleanOrphanedUtxos, hb]

/-- C4: Execute is idempotent: a second Execute run on the state left by a
successful Execute run (same wallet directory) returns a report with
`orphaned_utxos = 0` and leaves the filesystem state unchanged. -/
theorem c4_execute_idempotent (st : StoreState) (ts1 ts2 : String) (rep1 : Report)
    (h1 : (cleanOrphanedUtxos st false ts1).outcome = .ok rep1) :
    ∃ rep2 : Report,
      (cleanOrphanedUtxos (cleanOrphanedUtxos st false ts1).finalStore false ts2).outcome
          = .ok rep2
      ∧ rep2.orphaned_utxos = 0
      ∧ (cleanOrphanedUtxos (cleanOrphanedUtxos st false ts1).finalStore false ts2).finalStore
          = (cleanOrphanedUtxos st false ts1).finalStore := by
  obtain ⟨uf, nm, wd, bks⟩ := st
  cases uf with
  | none => simp [cleanOrphanedUtxos] at h1
  | some utxos =>
    cases wd with
    | none => simp [cleanOrphanedUtxos] at h1
    | some wf =>
      cases hb : buildIdentifiers wf with
      | error e => simp [cleanOrphanedUtxos, hb] at h1
      | ok ids =>
        by_cases hp : 0 < (partitionUtxos ids utxos).orphaned.length
        · have hall : ∀ e ∈ (partitionUtxos ids utxos).owned, (e.address.getD "") ∈ ids :=
            mem_owned_passes ids utxos
          have hsecond : partitionUtxos ids (partitionUtxos ids utxos).owned
              = ⟨(partitionUtxos ids utxos).owned, [], 0⟩ :=
            partition_all_owned ids _ hall
          refine ⟨mkReport ⟨(partitionUtxos ids utxos).owned, [], 0⟩, ?_⟩
          simp [cleanOrphanedUtxos, hb, mkReport, hp, hsecond]
        · have hz : (partitionUtxos ids utxos).orphaned.length = 0 :=
            Nat.eq_zero_of_not_pos hp
          refine ⟨mkReport (partitionUtxos ids utxos), ?_⟩
          simp [cleanOrphanedUtxos, hb, mkReport, hz]

/-- Witness for C4: two consecutive Execute runs on a store with one
orphaned entry; the first run returns the report (1, 0, 1, 300). -/
theorem c4_execute_idempotent_witness :
    ∃ rep2 : Report,
      (cleanOrphanedUtxos (cleanOrphanedUtxos ⟨some [⟨some "addrB", some 300, []⟩],
          "wallet_utxos.json", some [⟨"wallet_a.json", some ⟨none, some "addrA"⟩⟩], []⟩
          false "ts1").finalStore false "ts2").outcome = .ok rep2
      ∧ rep2.orphaned_utxos = 0
      ∧ (cleanOrphanedUtxos (cleanOrphanedUtxos ⟨some [⟨some "addrB", some 300, []⟩],
          "wallet_utxos.json", some [⟨"wallet_a.json", some ⟨none, some "addrA"⟩⟩], []⟩
          false "ts1").finalStore false "ts2").finalStore
          = (cleanOrphanedUtxos ⟨some [⟨some "addrB", some 300, []⟩],
              "wallet_utxos.json", some [⟨"wallet_a.json", some ⟨none, some "addrA"⟩⟩], []⟩
              false "ts1").finalStore :=
  c4_execute_idempotent _ "ts1" "ts2" ⟨1, 0, 1, 300⟩ rfl

/-! ## Identifier-set lemmas -/

/-- Inserting a string into the identifier set makes it a member. -/
theorem mem_setInsert_self (ids : List String) (x : String) : x ∈ setInsert ids x := by
  unfold setInsert
  split
  · assumption
  · simp

/-- Insertion preserves existing members. -/
theorem mem_setInsert_of_mem (ids : List String) (x y : String) (h : y ∈ ids) :
    y ∈ setInsert ids x := by
  unfold setInsert
  split
  · exact h
  · exact List.mem_append_left _ h

/-! ## Claim theorems: identifier index build -/

/-- Counterexample to C7 as stated: with an existing store and a missing
wallet directory, the run does fail with the wallet-store error, but the
trace already contains the UTXO-store read — the error is not raised
before the UTXO store is read. -/
theorem c7_counterexample :
    (cleanOrphanedUtxos ⟨some [⟨some "a", some 1, []⟩], "wallet_utxos.json", none, []⟩
        true "ts").outcome = .error .walletDirNotFound
    ∧ FsEvent.readUtxoFile
        ∈ (cleanOrphanedUtxos ⟨some [⟨some "a", some 1, []⟩], "wallet_utxos.json", none, []⟩
            true "ts").events :=
  ⟨rfl, by decide⟩

/-- C7 (amended): when the wallet store directory does not exist (and the
UTXO store exists), the run fails with the wallet-store error during the
identifier index build and leaves the state untouched, but the UTXO store
has already been read: the trace of the failed run is exactly the store
read. -/
theorem c7_wallet_dir_missing (st : StoreState) (dr : Bool) (ts : String)
    (utxos : List UtxoEntry)
    (hU : st.utxoFile = some utxos) (hW : st.walletDir = none) :
    (cleanOrphanedUtxos st dr ts).outcome = .error .walletDirNotFound
    ∧ (cleanOrphanedUtxos st dr ts).events = [.readUtxoFile]
    ∧ (cleanOrphanedUtxos st dr ts).finalStore = st := by
  obtain ⟨uf, nm, wd, bks⟩ := st
  simp only [StoreState.utxoFile] at hU
  simp only [StoreState.walletDir] at hW
  subst hU; subst hW
  exact ⟨rfl, rfl, rfl⟩

/-- Witness for C7 (amended) at a concrete state with a missing wallet
directory. -/
theorem c7_wallet_dir_missing_witness :
    (cleanOrphanedUtxos ⟨some [⟨some "a", some 1, []⟩], "wallet_utxos.json", none, []⟩
        false "ts").outcome = .error .walletDirNotFound
    ∧ (cleanOrphanedUtxos ⟨some [⟨some "a", some 1, []⟩], "wallet_utxos.json", none, []⟩
        false "ts").events = [.readUtxoFile]
    ∧ (cleanOrphanedUtxos ⟨some [⟨some "a", some 1, []⟩], "wallet_utxos.json", none, []⟩
        false "ts").finalStore
        = ⟨some [⟨some "a", some 1, []⟩], "wallet_utxos.json", none, []⟩ :=
  c7_wallet_dir_missing ⟨some [⟨some "a", some 1, []⟩], "wallet_utxos.json", none, []⟩
    false "ts" [⟨some "a", some 1, []⟩] rfl rfl

/-- Counterexample to C8 as stated: a directory holding a matching but
unparseable wallet file (followed by a perfectly valid one) makes the
index build — and the whole run — abort with a parse error instead of
skipping the file and completing. -/
theorem c8_counterexample :
    matchesWalletName "wallet_bad.json" = true
    ∧ buildIdentifiers [⟨"wallet_bad.json", none⟩, ⟨"wallet_good.json", some ⟨none, some "a"⟩⟩]
        = .error (.walletParseError "wallet_bad.json")
    ∧ (cleanOrphanedUtxos ⟨some [], "wallet_utxos.json",
        some [⟨"wallet_bad.json", none⟩, ⟨"wallet_good.json", some ⟨none, some "a"⟩⟩], []⟩
        true "ts").outcome = .error (.walletParseError "wallet_bad.json") :=
  ⟨by decide, rfl, rfl⟩

/-- C8 (amended): a file matching the wallet-record naming convention that
fails to parse is not skipped: the index build aborts at it with a parse
error naming the file, whatever identifiers were accumulated and whatever
files follow. -/
theorem c8_parse_failure_aborts (ids : List String) (name : String)
    (rest : List WalletFile) (hm : matchesWalletName name = true) :
    buildIdentifiersAux ids (⟨name, none⟩ :: rest) = .error (.walletParseError name) := by
  unfold buildIdentifiersAux
  simp [hm]

/-- Witness for C8 (amended) on a concrete malformed wallet file. -/
theorem c8_parse_failure_aborts_witness :
    buildIdentifiersAux [] [⟨"wallet_bad.json", none⟩, ⟨"wallet_good.json", some ⟨none, some "a"⟩⟩]
        = .error (.walletParseError "wallet_bad.json") :=
  c8_parse_failure_aborts [] "wallet_bad.json"
    [⟨"wallet_good.json", some ⟨none, some "a"⟩⟩] (by decide)

/-- Counterexample to C9 as stated: a wallet record whose `public_key` is
the empty string does contribute the empty string to the identifier set. -/
theorem c9_counterexample :
    buildIdentifiers [⟨"wallet_w2.json", some ⟨some "", some "addr1"⟩⟩] = .ok ["", "addr1"]
    ∧ "" ∈ ["", "addr1"] :=
  ⟨rfl, by decide⟩

/-- C9 (amended): the index builder adds `public_key` whenever the key is
present and `address` whenever the key is present, with no emptiness
check; for a matching single-record directory the build returns exactly
the record's additions to the empty set. -/
theorem c9_present_values_added (name : String) (ids : List String)
    (r : WalletRecord) (k a : String)
    (hm : matchesWalletName name = true)
    (hk : r.public_key = some k) (ha : r.address = some a) :
    k ∈ addWalletRecord ids r
    ∧ a ∈ addWalletRecord ids r
    ∧ buildIdentifiers [⟨name, some r⟩] = .ok (addWalletRecord [] r) := by
  refine ⟨?_, ?_, ?_⟩
  · unfold addWalletRecord
    rw [hk, ha]
    exact mem_setInsert_of_mem _ _ _ (mem_setInsert_self ids k)
  · unfold addWalletRecord
    rw [hk, ha]
    exact mem_setInsert_self _ a
  · simp [buildIdentifiers, buildIdentifiersAux, hm]

/-- Witness for C9 (amended): a record carrying an empty-string
`public_key` and an empty-string `address` puts the empty string in the
identifier set. -/
theorem c9_present_values_added_witness :
    "" ∈ addWalletRecord [] ⟨some "", some ""⟩
    ∧ "" ∈ addWalletRecord [] ⟨some "", some ""⟩
    ∧ buildIdentifiers [⟨"wallet_w2.json", some ⟨some "", some ""⟩⟩]
        = .ok (addWalletRecord [] ⟨some "", some ""⟩) :=
  c9_present_values_added "wallet_w2.json" [] ⟨some "", some ""⟩ "" ""
    (by decide) rfl rfl

/-! ## Claim theorems: write mechanism and naming -/

/-- Counterexample to C5 as stated: a concrete Execute run with one orphan
rewrites the store by a truncating open of the store path itself followed
by a direct write there; the trace contains no rename (and no write to any
temporary location), so the replacement is not implemented as an atomic
write-temporary-then-rename swap. -/
theorem c5_counterexample :
    (cleanOrphanedUtxos ⟨some [⟨some "addrB", some 300, []⟩], "wallet_utxos.json",
        some [⟨"wallet_a.json", some ⟨none, some "addrA"⟩⟩], []⟩
        false "20250101_000000").events
      = [.readUtxoFile, .listWalletDir,
         .copyFile "wallet_utxos.json" "wallet_utxos.json.orphan_backup_20250101_000000",
         .openTruncate "wallet_utxos.json",
         .writeAll "wallet_utxos.json" []]
    ∧ hasRename (cleanOrphanedUtxos ⟨some [⟨some "addrB", some 300, []⟩], "wallet_utxos.json",
        some [⟨"wallet_a.json", some ⟨none, some "addrA"⟩⟩], []⟩
        false "20250101_000000").events = false := by
  decide

/-- C5 (amended): in every mutating Execute run the store is replaced by
opening the store file itself for writing — truncating it in place — and
writing the owned entries directly into it; no temporary file and no
rename/atomic swap is involved, so a concurrent reader is not protected
against observing a partial write. -/
theorem c5_inplace_rewrite (st : StoreState) (ts : String)
    (utxos : List UtxoEntry) (wf : List WalletFile) (ids : List String)
    (hU : st.utxoFile = some utxos) (hW : st.walletDir = some wf)
    (hI : buildIdentifiers wf = .ok ids)
    (horph : 0 < (partitionUtxos ids utxos).orphaned.length) :
    hasRename (cleanOrphanedUtxos st false ts).events = false
    ∧ (cleanOrphanedUtxos st false ts).events
        = [.readUtxoFile, .listWalletDir,
           .copyFile st.utxoFileName (backupFileName ts),
           .openTruncate st.utxoFileName,
           .writeAll st.utxoFileName (partitionUtxos ids utxos).owned] := by
  obtain ⟨uf, nm, wd, bks⟩ := st
  simp only [StoreState.utxoFile] at hU
  simp only [StoreState.walletDir] at hW
  subst hU; subst hW
  constructor
  · simp [cleanOrphanedUtxos, hI, mkReport, horph, hasRename]
  · simp [cleanOrphanedUtxos, hI, mkReport, horph]

/-- Witness for C5 (amended) at a concrete one-orphan Execute run. -/
theorem c5_inplace_rewrite_witness :
    hasRename (cleanOrphanedUtxos ⟨some [⟨some "addrB", some 300, []⟩], "w.json",
        some [⟨"wallet_a.json", some ⟨none, some "addrA"⟩⟩], []⟩ false "ts").events = false
    ∧ (cleanOrphanedUtxos ⟨some [⟨some "addrB", some 300, []⟩], "w.json",
        some [⟨"wallet_a.json", some ⟨none, some "addrA"⟩⟩], []⟩ false "ts").events
        = [.readUtxoFile, .listWalletDir,
           .copyFile "w.json" (backupFileName "ts"),
           .openTruncate "w.json",
           .writeAll "w.json" (partitionUtxos ["addrA"] [⟨some "addrB", some 300, []⟩]).owned] :=
  c5_inplace_rewrite
    ⟨some [⟨some "addrB", some 300, []⟩], "w.json",
      some [⟨"wallet_a.json", some ⟨none, some "addrA"⟩⟩], []⟩
    "ts" [⟨some "addrB", some 300, []⟩]
    [⟨"wallet_a.json", some ⟨none, some "addrA"⟩⟩] ["addrA"] rfl rfl rfl (by decide)

/-- Counterexample to C6 as stated: when the store file is named
`store.json`, the Execute run still names its backup with the fixed base
`wallet_utxos.json` — the backup name is not derived from the original
store file's own name. -/
theorem c6_counterexample :
    ((cleanOrphanedUtxos ⟨some [⟨some "addrB", some 300, []⟩], "store.json",
        some [⟨"wallet_a.json", some ⟨none, some "addrA"⟩⟩], []⟩
        false "20250101_000000").finalStore.backups.map Prod.fst)
      = ["wallet_utxos.json.orphan_backup_20250101_000000"]
    ∧ "wallet_utxos.json.orphan_backup_20250101_000000"
        ≠ "store.json" ++ ".orphan_backup_" ++ "20250101_000000" := by
  decide

/-- C6 (amended): the backup is created alongside the original store, but
its name is the fixed string `wallet_utxos.json.orphan_backup_<timestamp>`
(second-resolution timestamp), independent of the store file's own name;
it coincides with `<original-name>.orphan_backup_<timestamp>` only when
the store file is itself named `wallet_utxos.json`. -/
theorem c6_backup_fixed_name (st : StoreState) (ts : String)
    (utxos : List UtxoEntry) (wf : List WalletFile) (ids : List String)
    (hU : st.utxoFile = some utxos) (hW : st.walletDir = some wf)
    (hI : buildIdentifiers wf = .ok ids)
    (horph : 0 < (partitionUtxos ids utxos).orphaned.length) :
    (cleanOrphanedUtxos st false ts).finalStore.backups
      = st.backups ++ [("wallet_utxos.json.orphan_backup_" ++ ts, utxos)] := by
  obtain ⟨uf, nm, wd, bks⟩ := st
  simp only [StoreState.utxoFile] at hU
  simp only [StoreState.walletDir] at hW
  subst hU; subst hW
  simp [cleanOrphanedUtxos, hI, mkReport, horph, backupFileName]

/-- Witness for C6 (amended) at a concrete one-orphan Execute run. -/
theorem c6_backup_fixed_name_witness :
    (cleanOrphanedUtxos ⟨some [⟨some "addrB", some 300, []⟩], "store.json",
        some [⟨"wallet_a.json", some ⟨none, some "addrA"⟩⟩], []⟩
        false "20250101_000000").finalStore.backups
      = ([] : List (String × List UtxoEntry))
          ++ [("wallet_utxos.json.orphan_backup_" ++ "20250101_000000",
               [⟨some "addrB", some 300, []⟩])] :=
  c6_backup_fixed_name
    ⟨some [⟨some "addrB", some 300, []⟩], "store.json",
      some [⟨"wallet_a.json", some ⟨none, some "addrA"⟩⟩], []⟩
    "20250101_000000" [⟨some "addrB", some 300, []⟩]
    [⟨"wallet_a.json", some ⟨none, some "addrA"⟩⟩] ["addrA"] rfl rfl rfl (by decide)

/-- C10: an orphaned entry with no `value_credits` key contributes exactly
0 to the orphaned-value accumulator — prepending it to the scan adds it to
the orphaned list and leaves the sum unchanged — and the (total) scan does
not fail on it. -/
theorem c10_missing_value_counts_zero (ids : List String) (e : UtxoEntry)
    (rest : List UtxoEntry)
    (horph : (e.address.getD "") ∉ ids) (hv : e.value_credits = none) :
    (partitionUtxos ids (e :: rest)).orphaned = e :: (partitionUtxos ids rest).orphaned
    ∧ (partitionUtxos ids (e :: rest)).orphanedValue
        = (partitionUtxos ids rest).orphanedValue := by
  simp [partitionUtxos, horph, hv]

/-- Witness for C10: a value-less orphaned entry ahead of a valued one. -/
theorem c10_missing_value_counts_zero_witness :
    (partitionUtxos [] [⟨some "x", none, []⟩, ⟨some "y", some 5, []⟩]).orphaned
        = ⟨some "x", none, []⟩ :: (partitionUtxos [] [⟨some "y", some 5, []⟩]).orphaned
    ∧ (partitionUtxos [] [⟨some "x", none, []⟩, ⟨some "y", some 5, []⟩]).orphanedValue
        = (partitionUtxos [] [⟨some "y", some 5, []⟩]).orphanedValue :=
  c10_missing_value_counts_zero [] ⟨some "x", none, []⟩ [⟨some "y", some 5, []⟩]
    (by decide) rfl
